import Mathlib

/-!
Verification of the Positron main-thread language-runtime adapter
(`src/vs/workbench/api/browser/positron/mainThreadLanguageRuntime.ts`).

The development is a shallow embedding of the adapter:

* `ExtHostLanguageRuntimeAdapter` becomes the `Adapter` structure together
  with pure state-transition functions (`Adapter.addToEventQueue`,
  `Adapter.processEventQueue`, `Adapter.processMessage`, ...).
* `ExtHostRuntimeClientInstance` becomes the `ClientInstance` structure with
  `ClientInstance.performRpc`, `ClientInstance.emitData`,
  `ClientInstance.dispose`, ...
* `MainThreadLanguageRuntime` becomes a handle-indexed table of adapters.

Side effects (emitter fires, log output, calls on the extension-host proxy,
promise settlements) are made observable as a `List TraceItem` returned next
to the updated state.  JavaScript `Map` objects are modelled as association
lists with insertion-order semantics (`alistGet` / `alistSet` /
`alistDelete`).
-/

/-- Modelled from the spec (section 4.2): the runtime state machine of a
session.  The enum itself lives in `languageRuntimeService.ts`, which is not
part of the excerpt; only the state names are needed here. -/
inductive RuntimeState
  | uninitialized
  | starting
  | ready
  | busy
  | interrupting
  | restarting
  | exiting
  | exited
  deriving DecidableEq, Repr

/-- Modelled from the spec (section 4.4): lifecycle states of a comm (client)
instance, from `languageRuntimeClientInstance.ts` (not in the excerpt). -/
inductive RuntimeClientState
  | uninitialized
  | opening
  | connected
  | closing
  | closed
  deriving DecidableEq, Repr

/-- Modelled from the spec (section 4.3): the enumerated capability tags for
comms (`RuntimeClientType` in `languageRuntimeClientInstance.ts`, not in the
excerpt).  The adapter only ever asks whether a wire string is one of the
known tags, so a small representative enumeration suffices. -/
inductive RuntimeClientType
  | environment
  | plot
  | lsp
  deriving DecidableEq, Repr

/-- The wire string of a client type (value of the TS enum member). -/
def RuntimeClientType.asString : RuntimeClientType → String
  | .environment => "positron.environment"
  | .plot => "positron.plot"
  | .lsp => "positron.lsp"

/-- Models `Object.values(RuntimeClientType).includes(s)`: parse a wire
string back into a known client type, if any. -/
def parseClientType (s : String) : Option RuntimeClientType :=
  if s = RuntimeClientType.environment.asString then some RuntimeClientType.environment
  else if s = RuntimeClientType.plot.asString then some RuntimeClientType.plot
  else if s = RuntimeClientType.lsp.asString then some RuntimeClientType.lsp
  else none

/-- The tagged union of runtime message payloads
(`LanguageRuntimeMessageType` plus the per-type fields of
`ILanguageRuntimeMessage*`).  The first six constructors are the plain
broadcast messages; the last three are comm-scoped. -/
inductive MessagePayload
  | stream (text : String)
  | output (data : String)
  | input (code : String)
  | errorMsg (message : String)
  | prompt (text : String)
  | state (st : String)
  | commOpen (comm_id : String) (target_name : String)
  | commData (comm_id : String) (data : String)
  | commClosed (comm_id : String)
  deriving DecidableEq, Repr

/-- The value of the `type` field of the message (the TS enum value),
used by `QueuedRuntimeMessageEvent.summary`. -/
def MessagePayload.typeName : MessagePayload → String
  | .stream _ => "stream"
  | .output _ => "output"
  | .input _ => "input"
  | .errorMsg _ => "error"
  | .prompt _ => "prompt"
  | .state _ => "state"
  | .commOpen _ _ => "comm_open"
  | .commData _ _ => "comm_data"
  | .commClosed _ => "comm_closed"

/-- True for the six plain broadcast message categories (those whose
dispatch simply fires the matching typed emitter). -/
def MessagePayload.isSimple : MessagePayload → Bool
  | .stream _ => true
  | .output _ => true
  | .input _ => true
  | .errorMsg _ => true
  | .prompt _ => true
  | .state _ => true
  | .commOpen _ _ => false
  | .commData _ _ => false
  | .commClosed _ => false

/-- `ILanguageRuntimeMessage`: the envelope shared by all runtime messages.
`parent_id` is `none` when the TS field is empty/undefined (it is used in a
truthiness test in `emitData`). -/
structure RuntimeMessage where
  id : String
  parent_id : Option String
  event_clock : Nat
  payload : MessagePayload
  deriving DecidableEq, Repr

/-- `QueuedRuntimeEvent`: an event held in the reorder buffer, either a
`QueuedRuntimeMessageEvent` or a `QueuedRuntimeStateEvent`. -/
inductive QueuedRuntimeEvent
  | message (clock : Nat) (msg : RuntimeMessage)
  | stateChange (clock : Nat) (newState : RuntimeState)
  deriving DecidableEq, Repr

/-- The `clock` field of a queued event. -/
def QueuedRuntimeEvent.clock : QueuedRuntimeEvent → Nat
  | .message c _ => c
  | .stateChange c _ => c

/-- String rendering of a runtime state (for `summary`). -/
def RuntimeState.asString : RuntimeState → String
  | .uninitialized => "uninitialized"
  | .starting => "starting"
  | .ready => "ready"
  | .busy => "busy"
  | .interrupting => "interrupting"
  | .restarting => "restarting"
  | .exiting => "exiting"
  | .exited => "exited"

/-- `QueuedRuntimeEvent.summary()`. -/
def QueuedRuntimeEvent.summary : QueuedRuntimeEvent → String
  | .message _ m => m.payload.typeName
  | .stateChange _ s => "=> " ++ s.asString

/-- How the native promise underlying a `DeferredPromise` settled. -/
inductive RpcOutcome
  | completed (data : String)
  | errored (message : String)
  deriving DecidableEq, Repr

/-- Modelled from the spec (section 4.4): `DeferredPromise` from
`vs/base/common/async` (not in the excerpt) wraps a native promise; the
native promise keeps its first settlement and silently ignores later
`complete`/`error` calls, and `isSettled` is true once either was called. -/
structure DeferredPromise where
  settled : Option RpcOutcome
  deriving DecidableEq, Repr

/-- `DeferredPromise.isSettled`. -/
def DeferredPromise.isSettled (p : DeferredPromise) : Bool :=
  p.settled.isSome

/-- Log severities used by `ILogService`. -/
inductive LogLevel
  | info
  | warn
  | errorLevel
  deriving DecidableEq, Repr

/-- Calls issued on the extension-host proxy (`ExtHostLanguageRuntimeShape`). -/
inductive ProxyCall
  | removeClient (handle : Nat) (commId : String)
  | createClient (handle : Nat) (commId : String) (clientType : RuntimeClientType)
  | sendClientMessage (handle : Nat) (commId : String) (messageId : String) (payload : String)
  deriving DecidableEq, Repr

/-- One observable side effect of the adapter or of a client instance:
log output, an emitter fire reaching external subscribers, a proxy call, or
a promise settlement. -/
inductive TraceItem
  | log (level : LogLevel) (message : String)
  | dispatched (msg : RuntimeMessage)
  | stateFired (s : RuntimeState)
  | clientCreated (commId : String)
  | clientState (commId : String) (s : RuntimeClientState)
  | clientData (commId : String) (data : String)
  | rpcSettled (messageId : String) (outcome : RpcOutcome)
  | proxy (call : ProxyCall)
  deriving DecidableEq, Repr

/-- Association-list lookup, modelling `Map.get`. -/
def alistGet {κ α : Type} [DecidableEq κ] (m : List (κ × α)) (k : κ) : Option α :=
  match m with
  | [] => none
  | (k', v) :: rest => if k' = k then some v else alistGet rest k

/-- Association-list insert/update, modelling `Map.set` (updates in place,
appends new keys, preserving insertion order). -/
def alistSet {κ α : Type} [DecidableEq κ] (m : List (κ × α)) (k : κ) (v : α) :
    List (κ × α) :=
  match m with
  | [] => [(k, v)]
  | (k', v') :: rest => if k' = k then (k, v) :: rest else (k', v') :: alistSet rest k v

/-- Association-list removal, modelling `Map.delete`. -/
def alistDelete {κ α : Type} [DecidableEq κ] (m : List (κ × α)) (k : κ) :
    List (κ × α) :=
  match m with
  | [] => []
  | (k', v') :: rest => if k' = k then rest else (k', v') :: alistDelete rest k

theorem alistGet_set_self {κ α : Type} [DecidableEq κ] (m : List (κ × α)) (k : κ) (v : α) :
    alistGet (alistSet m k v) k = some v := by
  induction m with
  | nil => simp [alistGet, alistSet]
  | cons hd tl ih =>
    by_cases h : hd.1 = k
    · simp [alistGet, alistSet, h]
    · simp [alistGet, alistSet, h, ih]

theorem alistGet_set_other {κ α : Type} [DecidableEq κ] (m : List (κ × α)) (k k' : κ) (v : α)
    (h : k ≠ k') : alistGet (alistSet m k v) k' = alistGet m k' := by
  induction m with
  | nil => simp [alistGet, alistSet, h]
  | cons hd tl ih =>
    by_cases hh : hd.1 = k
    · simp [alistGet, alistSet, hh, h]
    · simp [alistGet, alistSet, hh, ih]

/-- The front-end instance of a comm (`ExtHostRuntimeClientInstance`).
`disposed` records that `super.dispose()` ran: disposing the instance
disposes its registered emitters, so any later `fire` on the state or data
emitter reaches no listener (in particular `_state` stops updating). -/
structure ClientInstance where
  id : String
  clientType : RuntimeClientType
  clientState : RuntimeClientState := RuntimeClientState.uninitialized
  pendingRpcs : List (String × DeferredPromise) := []
  disposed : Bool := false
  deriving DecidableEq, Repr

/-- `setClientState`: fire the state emitter with the new state.  The first
registered listener stores it in `_state`; external subscribers observe the
fire (the `clientState` trace item).  After disposal the emitter has no
listeners, so the call is a no-op. -/
def ClientInstance.setClientState (c : ClientInstance) (s : RuntimeClientState) :
    ClientInstance × List TraceItem :=
  if c.disposed then (c, [])
  else ({ c with clientState := s }, [TraceItem.clientState c.id s])

/-- Message text of the RPC timeout error (the original request is appended,
as `JSON.stringify(request)` is in the source). -/
def rpcTimeoutText (request : String) : String :=
  "RPC timed out after 5 seconds: " ++ request

/-- Message used when disposal cancels pending RPCs. -/
def runtimeExitedText : String :=
  "The language runtime exited before the RPC completed."

/-- Settle a pending promise with an error.  The native promise keeps its
first settlement, so nothing is observable if it is already settled. -/
def settleError (messageId : String) (p : DeferredPromise) (msg : String) :
    DeferredPromise × List TraceItem :=
  if p.isSettled then (p, [])
  else ({ settled := some (RpcOutcome.errored msg) },
    [TraceItem.rpcSettled messageId (RpcOutcome.errored msg)])

/-- Settle a pending promise with a response value (same first-wins rule). -/
def settleComplete (messageId : String) (p : DeferredPromise) (data : String) :
    DeferredPromise × List TraceItem :=
  if p.isSettled then (p, [])
  else ({ settled := some (RpcOutcome.completed data) },
    [TraceItem.rpcSettled messageId (RpcOutcome.completed data)])

/-- `performRpc`: record a fresh pending entry under the generated message
id and forward the request to the server side.  (`generateUuid` is a source
of randomness; the generated id is taken as a parameter.)  The armed
5-second timeout is modelled as the separate step `rpcTimeout`. -/
def ClientInstance.performRpc (c : ClientInstance) (handle : Nat)
    (messageId : String) (request : String) : ClientInstance × List TraceItem :=
  ({ c with pendingRpcs := alistSet c.pendingRpcs messageId { settled := none } },
   [TraceItem.proxy (ProxyCall.sendClientMessage handle c.id messageId request)])

/-- The timeout callback armed by `performRpc` for `messageId`/`request`.
The callback captures the `DeferredPromise` object; every path that deletes
a map entry settles its promise first, so when the entry is gone the
captured promise is settled and the callback returns without effect. -/
def ClientInstance.rpcTimeout (c : ClientInstance) (messageId : String)
    (request : String) : ClientInstance × List TraceItem :=
  match alistGet c.pendingRpcs messageId with
  | none => (c, [])
  | some p =>
    if p.isSettled then (c, [])
    else
      let (_, tr) := settleError messageId p (rpcTimeoutText request)
      ({ c with pendingRpcs := alistDelete c.pendingRpcs messageId }, tr)

/-- `emitData`: a message whose `parent_id` matches a pending RPC completes
that RPC and removes the entry; anything else is fired on the data
emitter. -/
def ClientInstance.emitData (c : ClientInstance) (parent_id : Option String)
    (data : String) : ClientInstance × List TraceItem :=
  match parent_id with
  | some pid =>
    match alistGet c.pendingRpcs pid with
    | some p =>
      let (_, tr) := settleComplete pid p data
      ({ c with pendingRpcs := alistDelete c.pendingRpcs pid }, tr)
    | none =>
      if c.disposed then (c, []) else (c, [TraceItem.clientData c.id data])
  | none =>
    if c.disposed then (c, []) else (c, [TraceItem.clientData c.id data])

/-- `dispose`: `super.dispose()` first (disposing the emitters), then cancel
every pending RPC with the runtime-exited error — note the entries are not
removed from `_pendingRpcs` — then, if not already Closed: when Connected,
fire Closing, request remote removal, and fire Closed (both fires are
absorbed by the now-disposed emitter). -/
def ClientInstance.dispose (c : ClientInstance) (handle : Nat) :
    ClientInstance × List TraceItem :=
  let c := { c with disposed := true }
  let cancelled := c.pendingRpcs.foldl
    (fun (acc : List (String × DeferredPromise) × List TraceItem) kp =>
      let (p', tr) := settleError kp.1 kp.2 runtimeExitedText
      (acc.1 ++ [(kp.1, p')], acc.2 ++ tr)) ([], [])
  let c := { c with pendingRpcs := cancelled.1 }
  if c.clientState ≠ RuntimeClientState.closed then
    if c.clientState = RuntimeClientState.connected then
      let (c, tr₁) := c.setClientState RuntimeClientState.closing
      let tr₂ := [TraceItem.proxy (ProxyCall.removeClient handle c.id)]
      let (c, tr₃) := c.setClientState RuntimeClientState.closed
      (c, cancelled.2 ++ tr₁ ++ tr₂ ++ tr₃)
    else
      let (c, tr₁) := c.setClientState RuntimeClientState.closed
      (c, cancelled.2 ++ tr₁)
  else (c, cancelled.2)

/-- `ExtHostLanguageRuntimeAdapter`: per-session state.  `timerArmed` models
whether the 250ms recovery timer (`_eventQueueTimer`) is set. -/
structure Adapter where
  handle : Nat
  currentState : RuntimeState := RuntimeState.uninitialized
  clients : List (String × ClientInstance) := []
  eventClock : Nat := 0
  eventQueue : List QueuedRuntimeEvent := []
  timerArmed : Bool := false
  deriving DecidableEq, Repr

/-- A freshly registered session adapter (constructor state). -/
def freshAdapter (handle : Nat) : Adapter := { handle := handle }

/-- Insertion into a clock-sorted list; keeps an earlier event before a
later one with the same clock (JS `Array.sort` is stable). -/
def insertByClock (e : QueuedRuntimeEvent) :
    List QueuedRuntimeEvent → List QueuedRuntimeEvent
  | [] => [e]
  | x :: xs => if e.clock ≤ x.clock then e :: x :: xs else x :: insertByClock e xs

/-- `this._eventQueue.sort((a, b) => a.clock - b.clock)`: stable sort by
ascending clock. -/
def sortByClock (q : List QueuedRuntimeEvent) : List QueuedRuntimeEvent :=
  q.foldr insertByClock []

/-- `openClientInstance`: reject unknown target types by asking the back end
to remove the comm; otherwise create a wrapper already in Connected state,
register it, and fire the created event. -/
def Adapter.openClientInstance (a : Adapter) (comm_id target_name : String) :
    Adapter × List TraceItem :=
  match parseClientType target_name with
  | none => (a, [TraceItem.proxy (ProxyCall.removeClient a.handle comm_id)])
  | some ty =>
    let client : ClientInstance := { id := comm_id, clientType := ty }
    let (client, tr) := client.setClientState RuntimeClientState.connected
    ({ a with clients := alistSet a.clients comm_id client },
     tr ++ [TraceItem.clientCreated comm_id])

/-- `emitClientState`: relay a state change to the addressed client; warn
and drop when the id is unknown. -/
def Adapter.emitClientState (a : Adapter) (id : String) (s : RuntimeClientState) :
    Adapter × List TraceItem :=
  match alistGet a.clients id with
  | some c =>
    let (c', tr) := c.setClientState s
    ({ a with clients := alistSet a.clients id c' }, tr)
  | none =>
    (a, [TraceItem.log LogLevel.warn
      ("Client instance " ++ id ++ " not found; dropping state change")])

/-- `emitDidReceiveClientMessage`: route a comm-data message to the
addressed client; warn and drop when the id is unknown. -/
def Adapter.emitDidReceiveClientMessage (a : Adapter) (comm_id : String)
    (parent_id : Option String) (data : String) : Adapter × List TraceItem :=
  match alistGet a.clients comm_id with
  | some c =>
    let (c', tr) := c.emitData parent_id data
    ({ a with clients := alistSet a.clients comm_id c' }, tr)
  | none =>
    (a, [TraceItem.log LogLevel.warn
      ("Client instance " ++ comm_id ++ " not found; dropping message")])

/-- `processMessage`: broker the message type to one of the discrete
message events. -/
def Adapter.processMessage (a : Adapter) (msg : RuntimeMessage) :
    Adapter × List TraceItem :=
  match msg.payload with
  | .stream _ => (a, [TraceItem.dispatched msg])
  | .output _ => (a, [TraceItem.dispatched msg])
  | .input _ => (a, [TraceItem.dispatched msg])
  | .errorMsg _ => (a, [TraceItem.dispatched msg])
  | .prompt _ => (a, [TraceItem.dispatched msg])
  | .state _ => (a, [TraceItem.dispatched msg])
  | .commOpen comm_id target_name => a.openClientInstance comm_id target_name
  | .commData comm_id data => a.emitDidReceiveClientMessage comm_id msg.parent_id data
  | .commClosed comm_id => a.emitClientState comm_id RuntimeClientState.closed

/-- The per-client part of the constructor state listener for the Exited
state: a client that still thinks it is connected is moved through Closing
to Closed and disposed; other clients are left untouched. -/
def exitClient (handle : Nat) (c : ClientInstance) : ClientInstance × List TraceItem :=
  if c.clientState = RuntimeClientState.connected then
    let (c, tr₁) := c.setClientState RuntimeClientState.closing
    let (c, tr₂) := c.setClientState RuntimeClientState.closed
    let (c, tr₃) := c.dispose handle
    (c, tr₁ ++ tr₂ ++ tr₃)
  else (c, [])

/-- Fire the adapter state emitter.  The constructor-registered listener
runs first: it tracks `_currentState` and, on Exited, force-closes every
still-connected client and clears the client map; external subscribers then
observe the fire. -/
def Adapter.fireRuntimeState (a : Adapter) (s : RuntimeState) :
    Adapter × List TraceItem :=
  let a := { a with currentState := s }
  if s = RuntimeState.exited then
    let tr := a.clients.foldl (fun acc kc => acc ++ (exitClient a.handle kc.2).2) []
    ({ a with clients := [] }, tr ++ [TraceItem.stateFired s])
  else
    (a, [TraceItem.stateFired s])

/-- `handleQueuedEvent`: dispatch one event leaving the reorder buffer. -/
def Adapter.handleQueuedEvent (a : Adapter) (e : QueuedRuntimeEvent) :
    Adapter × List TraceItem :=
  match e with
  | .message _ msg => a.processMessage msg
  | .stateChange _ s => a.fireRuntimeState s

/-- One iteration of the `processEventQueue` dispatch loop: advance
`_eventClock` to the event clock, then handle the event. -/
def flushStep (acc : Adapter × List TraceItem) (e : QueuedRuntimeEvent) :
    Adapter × List TraceItem :=
  let a' := { acc.1 with eventClock := e.clock }
  ((a'.handleQueuedEvent e).1, acc.2 ++ (a'.handleQueuedEvent e).2)

/-- `processEventQueue`: cancel the recovery timer, sort the queue by clock
when it holds more than one event (with an info log), then dispatch each
event in order, advancing `_eventClock` to each event clock, and finally
clear the queue. -/
def Adapter.processEventQueue (a : Adapter) : Adapter × List TraceItem :=
  let a := { a with timerArmed := false }
  let sorted := if a.eventQueue.length > 1 then sortByClock a.eventQueue else a.eventQueue
  let infoTr : List TraceItem :=
    if a.eventQueue.length > 1 then
      [TraceItem.log LogLevel.info
        ("Processing " ++ toString a.eventQueue.length ++ " runtime events")]
    else []
  let folded := sorted.foldl flushStep (a, infoTr)
  ({ folded.1 with eventQueue := [] }, folded.2)

/-- Warning text for a late event delivered anyway. -/
def lateWarnText (e : QueuedRuntimeEvent) (eventClock : Nat) : String :=
  "Received " ++ e.summary ++ " at tick " ++ toString e.clock ++
    " while waiting for tick " ++ toString (eventClock + 1) ++ "; emitting anyway"

/-- Info text for a deferred out-of-order event. -/
def deferInfoText (e : QueuedRuntimeEvent) (eventClock : Nat) : String :=
  "Received " ++ e.summary ++ " at tick " ++ toString e.clock ++
    " while waiting for tick " ++ toString (eventClock + 1) ++ "; deferring"

/-- `addToEventQueue`: the reorder buffer.  An event whose clock is below
`_eventClock` is late: late message events are emitted anyway with a
warning, late state changes are intentionally ignored.  Otherwise the event
is queued; the queue is processed immediately when the event is the next in
sequence or no event has ever been observed, and deferred behind the
(re-armed) recovery timer otherwise. -/
def Adapter.addToEventQueue (a : Adapter) (event : QueuedRuntimeEvent) :
    Adapter × List TraceItem :=
  let clock := event.clock
  if clock < a.eventClock then
    match event with
    | .message _ msg =>
      let (a', tr) := a.processMessage msg
      (a', TraceItem.log LogLevel.warn (lateWarnText event a.eventClock) :: tr)
    | .stateChange _ _ => (a, [])
  else
    let a := { a with eventQueue := a.eventQueue ++ [event] }
    if clock = a.eventClock + 1 ∨ a.eventClock = 0 then
      a.processEventQueue
    else
      ({ a with timerArmed := true },
       [TraceItem.log LogLevel.info (deferInfoText event a.eventClock)])

/-- Warning text for a timeout-forced queue flush. -/
def timeoutFlushText : String :=
  "Processing runtime event queue after timeout; event ordering issues possible."

/-- The recovery-timer callback: warn, then process the queue.  When the
timer is not armed nothing happens (the timeout was cancelled). -/
def Adapter.timerFire (a : Adapter) : Adapter × List TraceItem :=
  if a.timerArmed then
    (a.processEventQueue.1,
      TraceItem.log LogLevel.warn timeoutFlushText :: a.processEventQueue.2)
  else (a, [])

/-- `handleRuntimeMessage`: queue an inbound message under its own
`event_clock`. -/
def Adapter.handleRuntimeMessage (a : Adapter) (msg : RuntimeMessage) :
    Adapter × List TraceItem :=
  a.addToEventQueue (QueuedRuntimeEvent.message msg.event_clock msg)

/-- `emitState`: queue an inbound runtime state change at the given clock. -/
def Adapter.emitState (a : Adapter) (clock : Nat) (s : RuntimeState) :
    Adapter × List TraceItem :=
  a.addToEventQueue (QueuedRuntimeEvent.stateChange clock s)

/-- `createClient` (synchronous part): create a wrapper, register it, fire
Opening on it, and forward the creation request — the instance is returned
to the caller right away.  `generateClientId` draws on `Math.random`, so the
generated id is a parameter. -/
def Adapter.createClient (a : Adapter) (clientType : RuntimeClientType) (id : String) :
    Adapter × List TraceItem :=
  let client : ClientInstance := { id := id, clientType := clientType }
  let a := { a with clients := alistSet a.clients id client }
  let (client, tr) := client.setClientState RuntimeClientState.opening
  let a := { a with clients := alistSet a.clients id client }
  (a, TraceItem.log LogLevel.info ("Creating client " ++ id) ::
    tr ++ [TraceItem.proxy (ProxyCall.createClient a.handle id clientType)])

/-- The `.then` continuation of `$createClient`: if the client is still
Opening, presume it connected; otherwise warn that it was closed before it
could be created.  The closure operates on the instance it captured, here
reached through the map entry it was registered under. -/
def Adapter.createClientResolved (a : Adapter) (id : String) :
    Adapter × List TraceItem :=
  match alistGet a.clients id with
  | some client =>
    if client.clientState = RuntimeClientState.opening then
      let (client, tr) := client.setClientState RuntimeClientState.connected
      ({ a with clients := alistSet a.clients id client }, tr)
    else
      (a, [TraceItem.log LogLevel.warn
        ("Client " ++ id ++ " was closed before it could be created")])
  | none => (a, [])

/-- The `.catch` continuation of `$createClient`: log the failure, move the
instance to Closed, and remove it from the client map. -/
def Adapter.createClientRejected (a : Adapter) (id : String) (err : String) :
    Adapter × List TraceItem :=
  match alistGet a.clients id with
  | some client =>
    let (client, tr) := client.setClientState RuntimeClientState.closed
    let a := { a with clients := alistSet a.clients id client }
    ({ a with clients := alistDelete a.clients id },
     TraceItem.log LogLevel.errorLevel ("Failed to create client " ++ id ++ ": " ++ err) :: tr)
  | none => (a, [])

/-- `MainThreadLanguageRuntime`: the process-wide handle-to-adapter table. -/
structure MainThread where
  runtimes : List (Nat × Adapter) := []
  deriving DecidableEq, Repr

/-- `findRuntime`: look up a runtime adapter by handle, throwing (modelled
as `Except.error`) when the handle is unknown. -/
def MainThread.findRuntime (m : MainThread) (handle : Nat) : Except String Adapter :=
  match alistGet m.runtimes handle with
  | none => Except.error ("Unknown language runtime handle: " ++ toString handle)
  | some r => Except.ok r

/-- `$emitLanguageRuntimeMessage`: route an inbound message to the adapter
for `handle`; an unknown handle propagates the `findRuntime` error. -/
def MainThread.emitLanguageRuntimeMessage (m : MainThread) (handle : Nat)
    (msg : RuntimeMessage) : Except String (MainThread × List TraceItem) :=
  match m.findRuntime handle with
  | Except.error e => Except.error e
  | Except.ok r =>
    let (r', tr) := r.handleRuntimeMessage msg
    Except.ok ({ m with runtimes := alistSet m.runtimes handle r' }, tr)

/-- `$emitLanguageRuntimeState`: route an inbound state change to the
adapter for `handle`; an unknown handle propagates the `findRuntime`
error. -/
def MainThread.emitLanguageRuntimeState (m : MainThread) (handle : Nat)
    (clock : Nat) (s : RuntimeState) : Except String (MainThread × List TraceItem) :=
  match m.findRuntime handle with
  | Except.error e => Except.error e
  | Except.ok r =>
    let (r', tr) := r.emitState clock s
    Except.ok ({ m with runtimes := alistSet m.runtimes handle r' }, tr)

/-- `$registerLanguageRuntime`: create an adapter for the handle and record
it in the table. -/
def MainThread.registerLanguageRuntime (m : MainThread) (handle : Nat) : MainThread :=
  { m with runtimes := alistSet m.runtimes handle (freshAdapter handle) }

/-- `$unregisterLanguageRuntime`. -/
def MainThread.unregisterLanguageRuntime (m : MainThread) (handle : Nat) : MainThread :=
  { m with runtimes := alistDelete m.runtimes handle }

/-- Submit a batch of messages one after another (no timer fires in
between: all of them arrive within the recovery window). -/
def submitStep (acc : Adapter × List TraceItem) (m : RuntimeMessage) :
    Adapter × List TraceItem :=
  ((acc.1.handleRuntimeMessage m).1, acc.2 ++ (acc.1.handleRuntimeMessage m).2)

def submitMessages (a : Adapter) (msgs : List RuntimeMessage) :
    Adapter × List TraceItem :=
  msgs.foldl submitStep (a, [])

/-- Submit a batch of messages within the recovery window and then let the
recovery timer fire (if it is armed), flushing any backlog. -/
def runToCompletion (a : Adapter) (msgs : List RuntimeMessage) :
    Adapter × List TraceItem :=
  ((submitMessages a msgs).1.timerFire.1,
    (submitMessages a msgs).2 ++ (submitMessages a msgs).1.timerFire.2)

/-- The clocks of the plain messages dispatched to subscribers, in dispatch
order. -/
def deliveredClocks (tr : List TraceItem) : List Nat :=
  tr.filterMap (fun item =>
    match item with
    | TraceItem.dispatched m => some m.event_clock
    | _ => none)

/-- A structural summary of a trace item that ignores log text (so that
statements about trace shape do not depend on message strings). -/
inductive ItemTag
  | logInfo
  | logWarn
  | logError
  | disp (clock : Nat)
  | stateF (s : RuntimeState)
  | clientMade (commId : String)
  | clientSt (commId : String) (s : RuntimeClientState)
  | clientDat (commId : String)
  | rpcSet (messageId : String)
  | proxyCall (call : ProxyCall)
  deriving DecidableEq, Repr

/-- Tag a trace item. -/
def tagOf : TraceItem → ItemTag
  | TraceItem.log LogLevel.info _ => ItemTag.logInfo
  | TraceItem.log LogLevel.warn _ => ItemTag.logWarn
  | TraceItem.log LogLevel.errorLevel _ => ItemTag.logError
  | TraceItem.dispatched m => ItemTag.disp m.event_clock
  | TraceItem.stateFired s => ItemTag.stateF s
  | TraceItem.clientCreated i => ItemTag.clientMade i
  | TraceItem.clientState i s => ItemTag.clientSt i s
  | TraceItem.clientData i _ => ItemTag.clientDat i
  | TraceItem.rpcSettled i _ => ItemTag.rpcSet i
  | TraceItem.proxy c => ItemTag.proxyCall c

/-- A plain output message with the given clock and id (used in concrete
scenarios). -/
def outputMsgAt (clock : Nat) (mid : String) : RuntimeMessage :=
  { id := mid, parent_id := none, event_clock := clock,
    payload := MessagePayload.output "x" }

theorem alistGet_delete_self_of_nodup {κ α : Type} [DecidableEq κ]
    (m : List (κ × α)) (k : κ) (h : (m.map Prod.fst).Nodup) :
    alistGet (alistDelete m k) k = none := by
  induction m with
  | nil => simp [alistDelete, alistGet]
  | cons hd tl ih =>
    simp only [List.map_cons, List.nodup_cons] at h
    by_cases hh : hd.1 = k
    · subst hh
      simp only [alistDelete, if_pos rfl]
      -- `k` does not occur in `tl`, so the lookup misses
      have hnotin : hd.1 ∉ tl.map Prod.fst := h.1
      clear ih h
      induction tl with
      | nil => simp [alistGet]
      | cons hd' tl' ih' =>
        simp only [List.map_cons, List.mem_cons, not_or] at hnotin
        simp only [alistGet]
        rw [if_neg (fun hc => hnotin.1 hc.symm)]
        exact ih' hnotin.2
    · simp only [alistDelete, if_neg hh, alistGet]
      exact ih h.2

theorem alistSet_keys_subset {κ α : Type} [DecidableEq κ]
    (m : List (κ × α)) (k : κ) (v : α) :
    ((alistSet m k v).map Prod.fst) = m.map Prod.fst ∨
      ((alistSet m k v).map Prod.fst) = m.map Prod.fst ++ [k] := by
  induction m with
  | nil => simp [alistSet]
  | cons hd tl ih =>
    by_cases hh : hd.1 = k
    · left; simp [alistSet, hh]
    · rcases ih with ih | ih
      · left; simp [alistSet, hh, ih]
      · right; simp [alistSet, hh, ih]

theorem alistSet_keys_nodup {κ α : Type} [DecidableEq κ]
    (m : List (κ × α)) (k : κ) (v : α) (h : (m.map Prod.fst).Nodup) :
    ((alistSet m k v).map Prod.fst).Nodup := by
  induction m with
  | nil => simp [alistSet]
  | cons hd tl ih =>
    simp only [List.map_cons, List.nodup_cons] at h
    by_cases hh : hd.1 = k
    · simp only [alistSet, if_pos hh, List.map_cons, List.nodup_cons]
      exact ⟨hh ▸ h.1, h.2⟩
    · simp only [alistSet, if_neg hh, List.map_cons, List.nodup_cons]
      refine ⟨fun hc => ?_, ih h.2⟩
      rcases alistSet_keys_subset tl k v with hs | hs
      · exact h.1 (hs ▸ hc)
      · rw [hs, List.mem_append] at hc
        rcases hc with hc | hc
        · exact h.1 hc
        · simp only [List.mem_singleton] at hc
          exact hh hc

theorem alistGet_mem {κ α : Type} [DecidableEq κ]
    (m : List (κ × α)) (k : κ) (v : α) (h : alistGet m k = some v) : (k, v) ∈ m := by
  induction m with
  | nil => simp [alistGet] at h
  | cons hd tl ih =>
    simp only [alistGet] at h
    by_cases hh : hd.1 = k
    · rw [if_pos hh] at h
      cases hd with
      | mk k' v' =>
        simp only at hh h
        injection h with h
        subst hh
        subst h
        exact List.mem_cons_self _ _
    · rw [if_neg hh] at h
      exact List.mem_cons_of_mem _ (ih h)

/-- Claim C5: submitting events with clocks [3, 1, 2] in that arrival order
as the first events a session ever observes delivers clock 3 first (the
no-prior-observation fast path flushes it immediately) and then delivers
clocks 1 and 2 out of order as late deliveries, each preceded by a warning,
in that order. -/
theorem c5_first_event_fast_path :
    deliveredClocks (runToCompletion (freshAdapter 0)
      [outputMsgAt 3 "a", outputMsgAt 1 "b", outputMsgAt 2 "c"]).2 = [3, 1, 2] ∧
    (runToCompletion (freshAdapter 0)
      [outputMsgAt 3 "a", outputMsgAt 1 "b", outputMsgAt 2 "c"]).2.map tagOf =
      [ItemTag.disp 3, ItemTag.logWarn, ItemTag.disp 1,
        ItemTag.logWarn, ItemTag.disp 2] := by
  decide

/-- Claim C4: an event submitted with clock strictly below the observed
clock is late.  A late message event is still processed — dispatched exactly
as `processMessage` dispatches it — with a warning diagnostic in front; a
late state-change event is ignored entirely, so the adapter (in particular
its `RuntimeState`) is unchanged. -/
theorem c4_late_events (a : Adapter) (msg : RuntimeMessage) (s : RuntimeState)
    (clock : Nat) (hmsg : msg.event_clock < a.eventClock) (hst : clock < a.eventClock) :
    a.handleRuntimeMessage msg =
      ((a.processMessage msg).1,
        TraceItem.log LogLevel.warn
            (lateWarnText (QueuedRuntimeEvent.message msg.event_clock msg) a.eventClock)
          :: (a.processMessage msg).2) ∧
    a.emitState clock s = (a, []) ∧
    (a.emitState clock s).1.currentState = a.currentState := by
  refine ⟨?_, ?_, ?_⟩
  · simp [Adapter.handleRuntimeMessage, Adapter.addToEventQueue, QueuedRuntimeEvent.clock,
      hmsg]
  · simp [Adapter.emitState, Adapter.addToEventQueue, QueuedRuntimeEvent.clock, hst]
  · simp [Adapter.emitState, Adapter.addToEventQueue, QueuedRuntimeEvent.clock, hst]

/-- Concrete instantiation of `c4_late_events`. -/
def wAdapter : Adapter := { handle := 0, eventClock := 5 }

theorem c4_late_events_witness :
    (outputMsgAt 1 "w").event_clock < wAdapter.eventClock ∧
    wAdapter.handleRuntimeMessage (outputMsgAt 1 "w") =
      ((wAdapter.processMessage (outputMsgAt 1 "w")).1,
        TraceItem.log LogLevel.warn
            (lateWarnText (QueuedRuntimeEvent.message (outputMsgAt 1 "w").event_clock
              (outputMsgAt 1 "w")) wAdapter.eventClock)
          :: (wAdapter.processMessage (outputMsgAt 1 "w")).2) ∧
    wAdapter.emitState 2 RuntimeState.ready = (wAdapter, []) :=
  ⟨by decide,
    (c4_late_events wAdapter (outputMsgAt 1 "w") RuntimeState.ready 2
      (by decide) (by decide)).1,
    (c4_late_events wAdapter (outputMsgAt 1 "w") RuntimeState.ready 2
      (by decide) (by decide)).2.1⟩

/-- Claim C10: an inbound runtime message or state-change notification for a
handle that is not in the session registry makes the entry-point operations
throw an "Unknown language runtime handle" error, while a comm-data message
for an unknown comm id is logged at warning level and dropped without
throwing. -/
theorem c10_unknown_handle_throws (m : MainThread) (handle : Nat)
    (hh : alistGet m.runtimes handle = none) (msg : RuntimeMessage)
    (clock : Nat) (s : RuntimeState) (a : Adapter) (cid : String)
    (pid : Option String) (data : String) (hc : alistGet a.clients cid = none) :
    m.emitLanguageRuntimeMessage handle msg =
      Except.error ("Unknown language runtime handle: " ++ toString handle) ∧
    m.emitLanguageRuntimeState handle clock s =
      Except.error ("Unknown language runtime handle: " ++ toString handle) ∧
    a.emitDidReceiveClientMessage cid pid data =
      (a, [TraceItem.log LogLevel.warn
        ("Client instance " ++ cid ++ " not found; dropping message")]) := by
  refine ⟨?_, ?_, ?_⟩
  · simp [MainThread.emitLanguageRuntimeMessage, MainThread.findRuntime, hh]
  · simp [MainThread.emitLanguageRuntimeState, MainThread.findRuntime, hh]
  · simp [Adapter.emitDidReceiveClientMessage, hc]

theorem c10_unknown_handle_throws_witness :
    alistGet ({ runtimes := [] } : MainThread).runtimes 7 = none ∧
    ({ runtimes := [] } : MainThread).emitLanguageRuntimeMessage 7 (outputMsgAt 1 "w") =
      Except.error ("Unknown language runtime handle: " ++ toString 7) ∧
    (freshAdapter 0).emitDidReceiveClientMessage "nope" none "d" =
      (freshAdapter 0, [TraceItem.log LogLevel.warn
        ("Client instance " ++ "nope" ++ " not found; dropping message")]) :=
  ⟨by decide,
    (c10_unknown_handle_throws { runtimes := [] } 7 (by decide) (outputMsgAt 1 "w")
      0 RuntimeState.ready (freshAdapter 0) "nope" none "d" (by decide)).1,
    (c10_unknown_handle_throws { runtimes := [] } 7 (by decide) (outputMsgAt 1 "w")
      0 RuntimeState.ready (freshAdapter 0) "nope" none "d" (by decide)).2.2⟩

/-- A connected client instance used in concrete scenarios. -/
def wClient : ClientInstance :=
  { id := "c1", clientType := RuntimeClientType.environment,
    clientState := RuntimeClientState.connected }

/-- An adapter owning `wClient` under id "c1". -/
def wCAdapter : Adapter := { handle := 0, clients := [("c1", wClient)] }

/-- A Comm-closed message addressed to "c1". -/
def wCommClosed : RuntimeMessage :=
  { id := "m", parent_id := none, event_clock := 7,
    payload := MessagePayload.commClosed "c1" }

/-- Claim C9: delivering the same Comm-closed event twice for the same comm
id leaves that comm in Closed both times; each delivery only fires the state
change (no error log, no proxy removal request, no RPC settlement) and the
pending-RPC map of the comm is untouched. -/
theorem c9_comm_closed_idempotent (a : Adapter) (cid : String) (c : ClientInstance)
    (msg : RuntimeMessage) (hpayload : msg.payload = MessagePayload.commClosed cid)
    (hc : alistGet a.clients cid = some c) (hid : c.id = cid) (hnd : c.disposed = false) :
    a.processMessage msg =
      ({ a with clients :=
          alistSet a.clients cid { c with clientState := RuntimeClientState.closed } },
        [TraceItem.clientState cid RuntimeClientState.closed]) ∧
    (a.processMessage msg).1.processMessage msg =
      ({ (a.processMessage msg).1 with clients :=
          (alistSet (a.processMessage msg).1.clients cid
            { c with clientState := RuntimeClientState.closed }) },
        [TraceItem.clientState cid RuntimeClientState.closed]) ∧
    alistGet ((a.processMessage msg).1.processMessage msg).1.clients cid =
      some { c with clientState := RuntimeClientState.closed } ∧
    ({ c with clientState := RuntimeClientState.closed } : ClientInstance).pendingRpcs
      = c.pendingRpcs := by
  have h1 : a.processMessage msg =
      ({ a with clients :=
          alistSet a.clients cid { c with clientState := RuntimeClientState.closed } },
        [TraceItem.clientState cid RuntimeClientState.closed]) := by
    simp [Adapter.processMessage, hpayload, Adapter.emitClientState, hc,
      ClientInstance.setClientState, hnd, hid]
  have h2 : (a.processMessage msg).1.processMessage msg =
      ({ (a.processMessage msg).1 with clients :=
          (alistSet (a.processMessage msg).1.clients cid
            { c with clientState := RuntimeClientState.closed }) },
        [TraceItem.clientState cid RuntimeClientState.closed]) := by
    rw [h1]
    simp [Adapter.processMessage, hpayload, Adapter.emitClientState, alistGet_set_self,
      ClientInstance.setClientState, hnd, hid]
  refine ⟨h1, h2, ?_, rfl⟩
  rw [h2]
  simp [alistGet_set_self]

theorem c9_comm_closed_idempotent_witness :
    alistGet wCAdapter.clients "c1" = some wClient ∧
    alistGet ((wCAdapter.processMessage wCommClosed).1.processMessage wCommClosed).1.clients
        "c1" = some { wClient with clientState := RuntimeClientState.closed } :=
  ⟨by decide,
    (c9_comm_closed_idempotent wCAdapter "c1" wClient wCommClosed rfl (by decide)
      rfl rfl).2.2.1⟩

/-- Claim C7 counterexample: processing a Comm-closed event moves the comm
to Closed but leaves it registered in the session's client map — the map is
not emptied and the id still resolves. -/
theorem c7_closed_comm_stays_registered_counterexample :
    alistGet (wCAdapter.processMessage wCommClosed).1.clients "c1" =
      some { wClient with clientState := RuntimeClientState.closed } ∧
    alistGet (wCAdapter.processMessage wCommClosed).1.clients "c1" ≠ none := by
  decide

/-- Claim C7 (amended): a comm that reaches Closed through a Comm-closed
event remains registered in the session's client map (with state Closed);
an instance is removed from the map only when client creation fails
(`createClient`'s catch path) or when the runtime exits (the map is
cleared). -/
theorem c7_closed_comm_registration (a : Adapter) (cid : String) (c : ClientInstance)
    (msg : RuntimeMessage) (hpayload : msg.payload = MessagePayload.commClosed cid)
    (hc : alistGet a.clients cid = some c) (hid : c.id = cid) (hnd : c.disposed = false)
    (hnodup : (a.clients.map Prod.fst).Nodup) (err : String) :
    alistGet (a.processMessage msg).1.clients cid =
      some { c with clientState := RuntimeClientState.closed } ∧
    alistGet (a.createClientRejected cid err).1.clients cid = none ∧
    (a.fireRuntimeState RuntimeState.exited).1.clients = [] := by
  refine ⟨?_, ?_, ?_⟩
  · simp [Adapter.processMessage, hpayload, Adapter.emitClientState, hc,
      ClientInstance.setClientState, hnd, hid, alistGet_set_self]
  · simp only [Adapter.createClientRejected, hc, ClientInstance.setClientState, hnd,
      Bool.false_eq_true, if_false]
    exact alistGet_delete_self_of_nodup _ _ (alistSet_keys_nodup _ _ _ hnodup)
  · simp [Adapter.fireRuntimeState]

theorem c7_closed_comm_registration_witness :
    alistGet wCAdapter.clients "c1" = some wClient ∧
    alistGet (wCAdapter.processMessage wCommClosed).1.clients "c1" =
      some { wClient with clientState := RuntimeClientState.closed } ∧
    alistGet (wCAdapter.createClientRejected "c1" "boom").1.clients "c1" = none :=
  ⟨by decide,
    (c7_closed_comm_registration wCAdapter "c1" wClient wCommClosed rfl (by decide)
      rfl rfl (by decide) "boom").1,
    (c7_closed_comm_registration wCAdapter "c1" wClient wCommClosed rfl (by decide)
      rfl rfl (by decide) "boom").2.1⟩

/-- Claim C3: on observing a state change to the terminal Exited state, the
session adapter empties its comm map, and every comm that was still open
(i.e. still in the Connected state — clients in other states are left as
they are) is transitioned through Closing to Closed and disposed. -/
theorem c3_exited_closes_connected_clients (a : Adapter) (c : ClientInstance)
    (h : Nat) (hconn : c.clientState = RuntimeClientState.connected)
    (hnd : c.disposed = false) (cOther : ClientInstance)
    (hother : cOther.clientState ≠ RuntimeClientState.connected) :
    (a.fireRuntimeState RuntimeState.exited).1.clients = [] ∧
    (a.fireRuntimeState RuntimeState.exited).1.currentState = RuntimeState.exited ∧
    (exitClient h c).1.clientState = RuntimeClientState.closed ∧
    (exitClient h c).1.disposed = true ∧
    (∃ rest, (exitClient h c).2 =
      TraceItem.clientState c.id RuntimeClientState.closing ::
        TraceItem.clientState c.id RuntimeClientState.closed :: rest) ∧
    exitClient h cOther = (cOther, []) := by
  refine ⟨by simp [Adapter.fireRuntimeState], by simp [Adapter.fireRuntimeState], ?_, ?_, ?_, ?_⟩
  · simp [exitClient, hconn, ClientInstance.setClientState, hnd, ClientInstance.dispose]
  · simp [exitClient, hconn, ClientInstance.setClientState, hnd, ClientInstance.dispose]
  · refine ⟨((({ c with clientState := RuntimeClientState.closed, disposed := true
        } : ClientInstance).pendingRpcs.foldl
        (fun (acc : List (String × DeferredPromise) × List TraceItem) kp =>
          let (p', tr) := settleError kp.1 kp.2 runtimeExitedText
          (acc.1 ++ [(kp.1, p')], acc.2 ++ tr)) ([], [])).2), ?_⟩
    simp [exitClient, hconn, ClientInstance.setClientState, hnd, ClientInstance.dispose]
  · simp [exitClient, hother]

theorem c3_exited_closes_connected_clients_witness :
    wClient.clientState = RuntimeClientState.connected ∧
    (wCAdapter.fireRuntimeState RuntimeState.exited).1.clients = [] ∧
    (exitClient 0 wClient).1.clientState = RuntimeClientState.closed ∧
    (exitClient 0 wClient).1.disposed = true :=
  ⟨by decide,
    (c3_exited_closes_connected_clients wCAdapter wClient 0 (by decide) (by decide)
      { id := "c2", clientType := RuntimeClientType.plot } (by decide)).1,
    (c3_exited_closes_connected_clients wCAdapter wClient 0 (by decide) (by decide)
      { id := "c2", clientType := RuntimeClientType.plot } (by decide)).2.2.1,
    (c3_exited_closes_connected_clients wCAdapter wClient 0 (by decide) (by decide)
      { id := "c2", clientType := RuntimeClientType.plot } (by decide)).2.2.2.1⟩

/-- Claim C6: `createClient` registers the new comm instance in the Opening
state and hands it back immediately; on successful settlement of the remote
creation request the instance moves to Connected, but only if it is still
Opening at that moment (otherwise only a warning is logged); it moves to
Closed when the creation request fails (and is dropped from the map) or
when the remote side closes it (Comm-closed relay) before acknowledgement. -/
theorem c6_create_client_lifecycle (a b : Adapter) (clientType : RuntimeClientType)
    (id : String) (c : ClientInstance) (hb : alistGet b.clients id = some c)
    (hid : c.id = id) (hnd : c.disposed = false)
    (hnodup : (b.clients.map Prod.fst).Nodup) (err : String) :
    alistGet (a.createClient clientType id).1.clients id =
      some { id := id, clientType := clientType,
             clientState := RuntimeClientState.opening } ∧
    (c.clientState = RuntimeClientState.opening →
      alistGet (b.createClientResolved id).1.clients id =
        some { c with clientState := RuntimeClientState.connected } ∧
      (b.createClientResolved id).2 =
        [TraceItem.clientState id RuntimeClientState.connected]) ∧
    (c.clientState ≠ RuntimeClientState.opening →
      b.createClientResolved id =
        (b, [TraceItem.log LogLevel.warn
          ("Client " ++ id ++ " was closed before it could be created")])) ∧
    ((b.createClientRejected id err).2 =
        [TraceItem.log LogLevel.errorLevel ("Failed to create client " ++ id ++ ": " ++ err),
          TraceItem.clientState id RuntimeClientState.closed] ∧
      alistGet (b.createClientRejected id err).1.clients id = none) ∧
    alistGet (b.emitClientState id RuntimeClientState.closed).1.clients id =
      some { c with clientState := RuntimeClientState.closed } := by
  refine ⟨?_, ?_, ?_, ⟨?_, ?_⟩, ?_⟩
  · simp [Adapter.createClient, ClientInstance.setClientState, alistGet_set_self]
  · intro hopen
    constructor
    · simp [Adapter.createClientResolved, hb, hopen, ClientInstance.setClientState,
        hnd, alistGet_set_self]
    · simp [Adapter.createClientResolved, hb, hopen, ClientInstance.setClientState,
        hnd, hid]
  · intro hnopen
    simp [Adapter.createClientResolved, hb, hnopen]
  · simp [Adapter.createClientRejected, hb, ClientInstance.setClientState, hnd, hid]
  · simp only [Adapter.createClientRejected, hb, ClientInstance.setClientState, hnd,
      Bool.false_eq_true, if_false]
    exact alistGet_delete_self_of_nodup _ _ (alistSet_keys_nodup _ _ _ hnodup)
  · simp [Adapter.emitClientState, hb, ClientInstance.setClientState, hnd,
      alistGet_set_self]

/-- An opening client instance used to instantiate `c6_create_client_lifecycle`. -/
def wOpening : ClientInstance :=
  { id := "k1", clientType := RuntimeClientType.plot,
    clientState := RuntimeClientState.opening }

/-- An adapter owning `wOpening` under id "k1". -/
def wOAdapter : Adapter := { handle := 0, clients := [("k1", wOpening)] }

theorem c6_create_client_lifecycle_witness :
    alistGet ((freshAdapter 0).createClient RuntimeClientType.plot "k1").1.clients "k1" =
      some { id := "k1", clientType := RuntimeClientType.plot,
             clientState := RuntimeClientState.opening } ∧
    alistGet (wOAdapter.createClientResolved "k1").1.clients "k1" =
      some { wOpening with clientState := RuntimeClientState.connected } ∧
    alistGet (wOAdapter.createClientRejected "k1" "boom").1.clients "k1" = none :=
  ⟨(c6_create_client_lifecycle (freshAdapter 0) wOAdapter RuntimeClientType.plot "k1"
      wOpening (by decide) rfl rfl (by decide) "boom").1,
    ((c6_create_client_lifecycle (freshAdapter 0) wOAdapter RuntimeClientType.plot "k1"
      wOpening (by decide) rfl rfl (by decide) "boom").2.1 rfl).1,
    (c6_create_client_lifecycle (freshAdapter 0) wOAdapter RuntimeClientType.plot "k1"
      wOpening (by decide) rfl rfl (by decide) "boom").2.2.2.1.2⟩

theorem cancelFold_eq (l : List (String × DeferredPromise))
    (acc : List (String × DeferredPromise) × List TraceItem) :
    l.foldl (fun (acc : List (String × DeferredPromise) × List TraceItem) kp =>
      let (p', tr) := settleError kp.1 kp.2 runtimeExitedText
      (acc.1 ++ [(kp.1, p')], acc.2 ++ tr)) acc =
    (acc.1 ++ l.map (fun kp => (kp.1, (settleError kp.1 kp.2 runtimeExitedText).1)),
     acc.2 ++ l.flatMap (fun kp => (settleError kp.1 kp.2 runtimeExitedText).2)) := by
  induction l generalizing acc with
  | nil => simp
  | cons hd tl ih =>
    rw [List.foldl_cons, ih]
    simp

theorem alistGet_cancelMap (l : List (String × DeferredPromise)) (k : String) :
    alistGet (l.map (fun kp => (kp.1, (settleError kp.1 kp.2 runtimeExitedText).1))) k =
      (alistGet l k).map (fun p => (settleError k p runtimeExitedText).1) := by
  induction l with
  | nil => rfl
  | cons hd tl ih =>
    by_cases h : hd.1 = k
    · simp [alistGet, h]
    · simp [alistGet, h, ih]

theorem dispose_spec (c : ClientInstance) (h : Nat) :
    (c.dispose h).1.pendingRpcs =
      c.pendingRpcs.map (fun kp => (kp.1, (settleError kp.1 kp.2 runtimeExitedText).1)) ∧
    ∃ rest, (c.dispose h).2 =
      c.pendingRpcs.flatMap (fun kp => (settleError kp.1 kp.2 runtimeExitedText).2)
        ++ rest := by
  simp only [ClientInstance.dispose, cancelFold_eq, ClientInstance.setClientState]
  split_ifs <;> simp

/-- Claim C2 (amended): `performRpc` records a fresh unsettled pending entry
under the correlation id and forwards the request; the pending promise is
settled at most once, by whichever of the three paths comes first — a
response (`emitData` resolves it and removes the entry), the timeout
(rejects with a timeout error carrying the original request and removes the
entry), or disposal (rejects with the runtime-exited error but leaves the
entry in the pending map).  Once settled, a later timeout is a no-op, a
later response removes the entry without settling again, and a later
disposal leaves the settled entry as it is. -/
theorem c2_perform_rpc_paths (c : ClientInstance) (h : Nat)
    (mid request data : String) (p : DeferredPromise)
    (hp : alistGet c.pendingRpcs mid = some p) (hunsettled : p.settled = none)
    (hnodup : (c.pendingRpcs.map Prod.fst).Nodup) :
    (alistGet (c.performRpc h mid request).1.pendingRpcs mid =
        some { settled := none } ∧
      (c.performRpc h mid request).2 =
        [TraceItem.proxy (ProxyCall.sendClientMessage h c.id mid request)]) ∧
    ((c.emitData (some mid) data).2 =
        [TraceItem.rpcSettled mid (RpcOutcome.completed data)] ∧
      alistGet (c.emitData (some mid) data).1.pendingRpcs mid = none) ∧
    ((c.rpcTimeout mid request).2 =
        [TraceItem.rpcSettled mid (RpcOutcome.errored (rpcTimeoutText request))] ∧
      rpcTimeoutText request = "RPC timed out after 5 seconds: " ++ request ∧
      alistGet (c.rpcTimeout mid request).1.pendingRpcs mid = none) ∧
    (TraceItem.rpcSettled mid (RpcOutcome.errored runtimeExitedText) ∈ (c.dispose h).2 ∧
      alistGet (c.dispose h).1.pendingRpcs mid =
        some { settled := some (RpcOutcome.errored runtimeExitedText) }) ∧
    (∀ (c' : ClientInstance) (q : DeferredPromise) (o : RpcOutcome),
      alistGet c'.pendingRpcs mid = some q → q.settled = some o →
      c'.rpcTimeout mid request = (c', []) ∧
      (c'.emitData (some mid) data).2 = [] ∧
      alistGet (c'.dispose h).1.pendingRpcs mid = some q) := by
  refine ⟨⟨?_, ?_⟩, ⟨?_, ?_⟩, ⟨?_, rfl, ?_⟩, ⟨?_, ?_⟩, ?_⟩
  · simp [ClientInstance.performRpc, alistGet_set_self]
  · simp [ClientInstance.performRpc]
  · simp [ClientInstance.emitData, hp, settleComplete, DeferredPromise.isSettled,
      hunsettled]
  · simp only [ClientInstance.emitData, hp]
    exact alistGet_delete_self_of_nodup _ _ hnodup
  · simp [ClientInstance.rpcTimeout, hp, settleError, DeferredPromise.isSettled,
      hunsettled]
  · simp only [ClientInstance.rpcTimeout, hp]
    simp only [DeferredPromise.isSettled, hunsettled, Option.isSome_none,
      Bool.false_eq_true, if_false]
    exact alistGet_delete_self_of_nodup _ _ hnodup
  · obtain ⟨rest, hrest⟩ := (dispose_spec c h).2
    rw [hrest]
    refine List.mem_append_left _ ?_
    refine List.mem_flatMap.mpr ⟨(mid, p), alistGet_mem _ _ _ hp, ?_⟩
    simp [settleError, DeferredPromise.isSettled, hunsettled]
  · rw [(dispose_spec c h).1, alistGet_cancelMap, hp]
    simp [settleError, DeferredPromise.isSettled, hunsettled]
  · intro c' q o hq hqs
    refine ⟨?_, ?_, ?_⟩
    · simp [ClientInstance.rpcTimeout, hq, DeferredPromise.isSettled, hqs]
    · simp [ClientInstance.emitData, hq, settleComplete, DeferredPromise.isSettled, hqs]
    · rw [(dispose_spec c' h).1, alistGet_cancelMap, hq]
      simp [settleError, DeferredPromise.isSettled, hqs]

/-- A connected client instance with one pending unsettled RPC "m1". -/
def rpcClient : ClientInstance :=
  { id := "r1", clientType := RuntimeClientType.environment,
    clientState := RuntimeClientState.connected,
    pendingRpcs := [("m1", { settled := none })] }

/-- Claim C2 counterexample: disposing an instance with a pending RPC
rejects the promise but does not remove the correlation id from the
pending-RPC map — the entry is still there (now settled) after disposal. -/
theorem c2_dispose_keeps_entry_counterexample :
    alistGet (rpcClient.dispose 0).1.pendingRpcs "m1" =
      some { settled := some (RpcOutcome.errored runtimeExitedText) } ∧
    alistGet (rpcClient.dispose 0).1.pendingRpcs "m1" ≠ none := by
  decide

theorem c2_perform_rpc_paths_witness :
    alistGet rpcClient.pendingRpcs "m1" = some { settled := none } ∧
    alistGet (rpcClient.emitData (some "m1") "ok").1.pendingRpcs "m1" = none ∧
    alistGet (rpcClient.rpcTimeout "m1" "req").1.pendingRpcs "m1" = none ∧
    alistGet (rpcClient.dispose 0).1.pendingRpcs "m1" =
      some { settled := some (RpcOutcome.errored runtimeExitedText) } :=
  ⟨by decide,
    (c2_perform_rpc_paths rpcClient 0 "m1" "req" "ok" { settled := none }
      (by decide) rfl (by decide)).2.1.2,
    (c2_perform_rpc_paths rpcClient 0 "m1" "req" "ok" { settled := none }
      (by decide) rfl (by decide)).2.2.1.2.2,
    (c2_perform_rpc_paths rpcClient 0 "m1" "req" "ok" { settled := none }
      (by decide) rfl (by decide)).2.2.2.1.2⟩

theorem processMessage_fields (a : Adapter) (m : RuntimeMessage) :
    (a.processMessage m).1.eventClock = a.eventClock ∧
    (a.processMessage m).1.eventQueue = a.eventQueue ∧
    (a.processMessage m).1.timerArmed = a.timerArmed ∧
    (a.processMessage m).1.handle = a.handle := by
  cases hm : m.payload <;>
    simp only [Adapter.processMessage, hm, Adapter.openClientInstance,
      Adapter.emitClientState, Adapter.emitDidReceiveClientMessage] <;>
    (try split) <;> simp

theorem fireRuntimeState_fields (a : Adapter) (s : RuntimeState) :
    (a.fireRuntimeState s).1.eventClock = a.eventClock ∧
    (a.fireRuntimeState s).1.eventQueue = a.eventQueue ∧
    (a.fireRuntimeState s).1.timerArmed = a.timerArmed ∧
    (a.fireRuntimeState s).1.handle = a.handle := by
  simp only [Adapter.fireRuntimeState]
  split <;> simp

theorem handleQueuedEvent_fields (a : Adapter) (e : QueuedRuntimeEvent) :
    (a.handleQueuedEvent e).1.eventClock = a.eventClock ∧
    (a.handleQueuedEvent e).1.eventQueue = a.eventQueue ∧
    (a.handleQueuedEvent e).1.timerArmed = a.timerArmed ∧
    (a.handleQueuedEvent e).1.handle = a.handle := by
  cases e with
  | message c m => exact processMessage_fields a m
  | stateChange c s => exact fireRuntimeState_fields a s

theorem mem_insertByClock (x e : QueuedRuntimeEvent) (l : List QueuedRuntimeEvent) :
    x ∈ insertByClock e l ↔ x = e ∨ x ∈ l := by
  induction l with
  | nil => simp [insertByClock]
  | cons hd tl ih =>
    by_cases hc : e.clock ≤ hd.clock
    · simp [insertByClock, hc]
    · simp only [insertByClock, if_neg hc, List.mem_cons, ih]
      tauto

theorem mem_sortByClock (x : QueuedRuntimeEvent) (l : List QueuedRuntimeEvent) :
    x ∈ sortByClock l ↔ x ∈ l := by
  induction l with
  | nil => simp [sortByClock]
  | cons hd tl ih =>
    simp only [sortByClock, List.foldr_cons] at *
    rw [mem_insertByClock, ih, List.mem_cons]

/-- Well-formedness of the reorder buffer: every queued event is at or
above the observed clock.  This holds in every reachable adapter state. -/
def queueWF (a : Adapter) : Prop :=
  ∀ e ∈ a.eventQueue, a.eventClock ≤ e.clock

theorem flushFold_clock_bound (n : Nat) (es : List QueuedRuntimeEvent) :
    ∀ (acc : Adapter × List TraceItem), (∀ e ∈ es, n ≤ e.clock) →
    n ≤ acc.1.eventClock →
    n ≤ (es.foldl flushStep acc).1.eventClock := by
  induction es with
  | nil => exact fun acc _ hacc => hacc
  | cons e es ih =>
    intro acc hes hacc
    rw [List.foldl_cons]
    refine ih _ (fun x hx => hes x (List.mem_cons_of_mem _ hx)) ?_
    have hfields := handleQueuedEvent_fields { acc.1 with eventClock := e.clock } e
    simpa [flushStep, hfields.1] using hes e (List.mem_cons_self _ _)

theorem processEventQueue_mono (a : Adapter) (hwf : queueWF a) :
    a.eventClock ≤ (a.processEventQueue).1.eventClock ∧
    (a.processEventQueue).1.eventQueue = [] := by
  constructor
  · simp only [Adapter.processEventQueue]
    refine flushFold_clock_bound a.eventClock _ _ ?_ le_rfl
    intro e he
    split at he
    · exact hwf e ((mem_sortByClock e _).mp he)
    · exact hwf e he
  · simp [Adapter.processEventQueue]

theorem addToEventQueue_mono (a : Adapter) (e : QueuedRuntimeEvent) (hwf : queueWF a) :
    a.eventClock ≤ (a.addToEventQueue e).1.eventClock ∧
    queueWF (a.addToEventQueue e).1 := by
  by_cases hlate : e.clock < a.eventClock
  · cases e with
    | message c m =>
      have hfields := processMessage_fields a m
      simp only [Adapter.addToEventQueue, QueuedRuntimeEvent.clock] at *
      rw [if_pos hlate]
      refine ⟨le_of_eq hfields.1.symm, ?_⟩
      intro x hx
      rw [hfields.1, hfields.2.1] at *
      exact hwf x hx
    | stateChange c s =>
      simp only [Adapter.addToEventQueue, QueuedRuntimeEvent.clock] at *
      rw [if_pos hlate]
      exact ⟨le_rfl, hwf⟩
  · have hwf' : queueWF { a with eventQueue := a.eventQueue ++ [e] } := by
      intro x hx
      rcases List.mem_append.mp hx with hx | hx
      · exact hwf x hx
      · simp only [List.mem_singleton] at hx
        subst hx
        exact le_of_not_lt hlate
    simp only [Adapter.addToEventQueue]
    rw [if_neg hlate]
    by_cases hflush : e.clock = a.eventClock + 1 ∨ a.eventClock = 0
    · rw [if_pos hflush]
      have h := processEventQueue_mono { a with eventQueue := a.eventQueue ++ [e] } hwf'
      exact ⟨h.1, fun x hx => by simp [h.2] at hx⟩
    · rw [if_neg hflush]
      exact ⟨le_rfl, fun x hx => hwf' x hx⟩

theorem timerFire_mono (a : Adapter) (hwf : queueWF a) :
    a.eventClock ≤ (a.timerFire).1.eventClock ∧ queueWF (a.timerFire).1 := by
  by_cases ht : a.timerArmed
  · simp only [Adapter.timerFire, ht, if_true]
    have h := processEventQueue_mono a hwf
    exact ⟨h.1, fun x hx => by simp [h.2] at hx⟩
  · simp only [Adapter.timerFire, ht]
    exact ⟨le_rfl, hwf⟩

/-- An externally driven step of a session: an inbound message, an inbound
state change, or the recovery timer firing. -/
inductive SessionStep
  | submitMessage (m : RuntimeMessage)
  | submitState (clock : Nat) (s : RuntimeState)
  | timerFired

/-- Apply one session step. -/
def Adapter.applyStep (a : Adapter) : SessionStep → Adapter × List TraceItem
  | .submitMessage m => a.handleRuntimeMessage m
  | .submitState clock s => a.emitState clock s
  | .timerFired => a.timerFire

/-- Run a sequence of session steps, keeping only the final state. -/
def runSteps (a : Adapter) (ss : List SessionStep) : Adapter :=
  ss.foldl (fun a s => (a.applyStep s).1) a

theorem applyStep_mono (a : Adapter) (s : SessionStep) (hwf : queueWF a) :
    a.eventClock ≤ (a.applyStep s).1.eventClock ∧ queueWF (a.applyStep s).1 := by
  cases s with
  | submitMessage m => exact addToEventQueue_mono a _ hwf
  | submitState clock st => exact addToEventQueue_mono a _ hwf
  | timerFired => exact timerFire_mono a hwf

theorem queueWF_runSteps (a : Adapter) (ss : List SessionStep) (hwf : queueWF a) :
    queueWF (runSteps a ss) := by
  induction ss generalizing a with
  | nil => exact hwf
  | cons s ss ih =>
    rw [runSteps, List.foldl_cons]
    exact ih _ (applyStep_mono a s hwf).2

/-- Claim C8: over the whole lifetime of a session — any sequence of
submissions (in-order, deferred or late, messages or state changes) and
timer-driven flushes starting from a fresh adapter — the reorder buffer's
observed clock (`_eventClock`) never decreases at any step. -/
theorem c8_observed_clock_monotone (h : Nat) (ss : List SessionStep) (s : SessionStep) :
    (runSteps (freshAdapter h) ss).eventClock ≤
      (runSteps (freshAdapter h) (ss ++ [s])).eventClock := by
  have hwf0 : queueWF (freshAdapter h) := by
    intro e he
    simp [freshAdapter] at he
  have hwf := queueWF_runSteps (freshAdapter h) ss hwf0
  have : runSteps (freshAdapter h) (ss ++ [s]) =
      ((runSteps (freshAdapter h) ss).applyStep s).1 := by
    simp [runSteps, List.foldl_append]
  rw [this]
  exact (applyStep_mono _ s hwf).1

/-- A queued event that is a plain broadcast message carrying its own
message clock (the shape produced by `handleRuntimeMessage` for the six
plain message categories). -/
def goodEvent : QueuedRuntimeEvent → Prop
  | .message c m => m.event_clock = c ∧ m.payload.isSimple = true
  | .stateChange _ _ => False

/-- The trace item produced when a queued event is dispatched. -/
def dispOf : QueuedRuntimeEvent → TraceItem
  | .message _ m => TraceItem.dispatched m
  | .stateChange _ s => TraceItem.stateFired s

/-- The clock of the last event of `es` (or `d` when `es` is empty): the
value of `_eventClock` after a flush dispatches `es` in order. -/
def lastClock (es : List QueuedRuntimeEvent) (d : Nat) : Nat :=
  es.foldl (fun _ e => e.clock) d

theorem processMessage_simple (a : Adapter) (m : RuntimeMessage)
    (h : m.payload.isSimple = true) :
    a.processMessage m = (a, [TraceItem.dispatched m]) := by
  cases hm : m.payload <;> simp_all [Adapter.processMessage, MessagePayload.isSimple]

theorem sortByClock_of_pairwise (l : List QueuedRuntimeEvent)
    (h : List.Pairwise (fun x y => x.clock ≤ y.clock) l) : sortByClock l = l := by
  induction l with
  | nil => rfl
  | cons x xs ih =>
    have hx := (List.pairwise_cons.mp h).1
    have hxs := (List.pairwise_cons.mp h).2
    show insertByClock x (sortByClock xs) = x :: xs
    rw [ih hxs]
    cases xs with
    | nil => rfl
    | cons y ys =>
      show (if x.clock ≤ y.clock then x :: y :: ys else y :: insertByClock x ys) = _
      rw [if_pos (hx y (List.mem_cons_self _ _))]

theorem flushFold_good (es : List QueuedRuntimeEvent) :
    ∀ (acc : Adapter × List TraceItem), (∀ e ∈ es, goodEvent e) →
    es.foldl flushStep acc =
    ({ acc.1 with eventClock := lastClock es acc.1.eventClock },
      acc.2 ++ es.map dispOf) := by
  induction es with
  | nil => intro acc _; simp [lastClock]
  | cons e es ih =>
    intro acc hes
    have hgood := hes e (List.mem_cons_self _ _)
    rw [List.foldl_cons]
    cases e with
    | message c m =>
      have hstep : flushStep acc (QueuedRuntimeEvent.message c m) =
          ({ acc.1 with eventClock := c }, acc.2 ++ [TraceItem.dispatched m]) := by
        simp [flushStep, Adapter.handleQueuedEvent, QueuedRuntimeEvent.clock,
          processMessage_simple _ m hgood.2]
      rw [hstep, ih _ (fun x hx => hes x (List.mem_cons_of_mem _ hx))]
      simp [lastClock, dispOf, QueuedRuntimeEvent.clock]
    | stateChange c s => exact absurd hgood (by simp [goodEvent])

theorem lastClock_append (l : List QueuedRuntimeEvent) (e : QueuedRuntimeEvent) (d : Nat) :
    lastClock (l ++ [e]) d = e.clock := by
  simp [lastClock, List.foldl_append]

theorem processEventQueue_good (a : Adapter)
    (hgood : ∀ e ∈ a.eventQueue, goodEvent e)
    (hsorted : List.Pairwise (fun x y => x.clock ≤ y.clock) a.eventQueue) :
    a.processEventQueue =
      ({ a with
          eventClock := lastClock a.eventQueue a.eventClock,
          eventQueue := [], timerArmed := false },
        (if a.eventQueue.length > 1 then
          [TraceItem.log LogLevel.info
            ("Processing " ++ toString a.eventQueue.length ++ " runtime events")]
        else []) ++ a.eventQueue.map dispOf) := by
  simp only [Adapter.processEventQueue]
  by_cases hl : a.eventQueue.length > 1
  · simp only [hl, if_true, gt_iff_lt, sortByClock_of_pairwise _ hsorted]
    rw [flushFold_good _ _ hgood]
  · simp only [hl, if_false, gt_iff_lt]
    rw [flushFold_good _ _ hgood]

theorem deliveredClocks_append (t₁ t₂ : List TraceItem) :
    deliveredClocks (t₁ ++ t₂) = deliveredClocks t₁ ++ deliveredClocks t₂ :=
  List.filterMap_append _ _ _

theorem deliveredClocks_dispOf (es : List QueuedRuntimeEvent)
    (h : ∀ e ∈ es, goodEvent e) :
    deliveredClocks (es.map dispOf) = es.map QueuedRuntimeEvent.clock := by
  induction es with
  | nil => rfl
  | cons e es ih =>
    have hg := h e (List.mem_cons_self _ _)
    cases e with
    | message c m =>
      have ih' := ih (fun x hx => h x (List.mem_cons_of_mem _ hx))
      simp only [deliveredClocks] at ih' ⊢
      simp only [List.map_cons, dispOf, List.filterMap_cons, QueuedRuntimeEvent.clock]
      rw [ih', hg.1]
    | stateChange c s => exact absurd hg (by simp [goodEvent])

theorem submitFold_trace (msgs : List RuntimeMessage) :
    ∀ (a : Adapter) (tr : List TraceItem),
    msgs.foldl submitStep (a, tr) =
      ((msgs.foldl submitStep (a, [])).1, tr ++ (msgs.foldl submitStep (a, [])).2) := by
  induction msgs with
  | nil => intro a tr; simp
  | cons m rest ih =>
    intro a tr
    rw [List.foldl_cons, List.foldl_cons]
    rw [show submitStep (a, tr) m =
      ((a.handleRuntimeMessage m).1, tr ++ (a.handleRuntimeMessage m).2) from rfl]
    rw [show submitStep (a, []) m =
      ((a.handleRuntimeMessage m).1, [] ++ (a.handleRuntimeMessage m).2) from rfl]
    rw [ih _ (tr ++ (a.handleRuntimeMessage m).2),
      ih _ ([] ++ (a.handleRuntimeMessage m).2)]
    simp

theorem submitMessages_cons (a : Adapter) (m : RuntimeMessage)
    (rest : List RuntimeMessage) :
    submitMessages a (m :: rest) =
      ((submitMessages (a.handleRuntimeMessage m).1 rest).1,
        (a.handleRuntimeMessage m).2 ++
          (submitMessages (a.handleRuntimeMessage m).1 rest).2) := by
  simp only [submitMessages, List.foldl_cons]
  rw [show submitStep (a, []) m =
    ((a.handleRuntimeMessage m).1, [] ++ (a.handleRuntimeMessage m).2) from rfl]
  rw [submitFold_trace]
  simp

theorem runToCompletion_cons (a : Adapter) (m : RuntimeMessage)
    (rest : List RuntimeMessage) :
    runToCompletion a (m :: rest) =
      ((runToCompletion (a.handleRuntimeMessage m).1 rest).1,
        (a.handleRuntimeMessage m).2 ++
          (runToCompletion (a.handleRuntimeMessage m).1 rest).2) := by
  simp [runToCompletion, submitMessages_cons]

theorem runToCompletion_nil (a : Adapter) :
    runToCompletion a [] = (a.timerFire.1, a.timerFire.2) := by
  simp [runToCompletion, submitMessages]

theorem deliveredClocks_log (lvl : LogLevel) (s : String) (t : List TraceItem) :
    deliveredClocks (TraceItem.log lvl s :: t) = deliveredClocks t := by
  simp [deliveredClocks]

theorem ascending_run (msgs : List RuntimeMessage) :
    ∀ (a : Adapter),
    (∀ m ∈ msgs, m.payload.isSimple = true) →
    List.Pairwise (fun m₁ m₂ => m₁.event_clock < m₂.event_clock) msgs →
    (∀ e ∈ a.eventQueue, goodEvent e) →
    List.Pairwise (fun x y => x.clock < y.clock) a.eventQueue →
    (a.eventQueue ≠ [] → a.timerArmed = true) →
    (∀ m ∈ msgs, a.eventClock = 0 ∨ a.eventClock < m.event_clock) →
    (∀ m ∈ msgs, ∀ e ∈ a.eventQueue, e.clock < m.event_clock) →
    deliveredClocks (runToCompletion a msgs).2 =
      a.eventQueue.map QueuedRuntimeEvent.clock ++ msgs.map (fun m => m.event_clock) := by
  induction msgs with
  | nil =>
    intro a _ _ hqgood hqsorted htimer _ _
    rw [runToCompletion_nil]
    by_cases ht : a.timerArmed
    · have hpq := processEventQueue_good a hqgood (hqsorted.imp le_of_lt)
      simp only [Adapter.timerFire, ht, if_true]
      rw [hpq]
      simp only [deliveredClocks_log, deliveredClocks_append,
        deliveredClocks_dispOf _ hqgood, List.map_nil, List.append_nil]
      split <;> simp [deliveredClocks]
    · have hqe : a.eventQueue = [] := by
        by_contra hne
        exact ht (htimer hne)
      simp [Adapter.timerFire, ht, hqe, deliveredClocks]
  | cons m rest ih =>
    intro a hsimple hasc hqgood hqsorted htimer hclk hq
    have hms : m.payload.isSimple = true := hsimple m (List.mem_cons_self _ _)
    have hrs : ∀ m' ∈ rest, m'.payload.isSimple = true :=
      fun m' hm' => hsimple m' (List.mem_cons_of_mem _ hm')
    have hmlt : ∀ m' ∈ rest, m.event_clock < m'.event_clock :=
      (List.pairwise_cons.mp hasc).1
    have hascr := (List.pairwise_cons.mp hasc).2
    have hnotlate : ¬ (m.event_clock < a.eventClock) := by
      rcases hclk m (List.mem_cons_self _ _) with h0 | hlt
      · rw [h0]; exact Nat.not_lt_zero _
      · exact Nat.lt_asymm hlt
    have hgood' : ∀ e ∈ a.eventQueue ++ [QueuedRuntimeEvent.message m.event_clock m],
        goodEvent e := by
      intro e he
      rcases List.mem_append.mp he with he | he
      · exact hqgood e he
      · simp only [List.mem_singleton] at he
        subst he
        exact ⟨rfl, hms⟩
    rw [runToCompletion_cons, deliveredClocks_append]
    by_cases hflush : m.event_clock = a.eventClock + 1 ∨ a.eventClock = 0
    · -- the new event closes the gap (or nothing was ever observed): flush
      have hsorted' : List.Pairwise (fun x y => x.clock ≤ y.clock)
          (a.eventQueue ++ [QueuedRuntimeEvent.message m.event_clock m]) := by
        rw [List.pairwise_append]
        refine ⟨hqsorted.imp le_of_lt, List.pairwise_singleton _ _, ?_⟩
        intro x hx y hy
        simp only [List.mem_singleton] at hy
        subst hy
        exact le_of_lt (hq m (List.mem_cons_self _ _) x hx)
      have hstep : a.handleRuntimeMessage m =
          ({ a with
              eventQueue := a.eventQueue ++ [QueuedRuntimeEvent.message m.event_clock m] }
            : Adapter).processEventQueue := by
        simp only [Adapter.handleRuntimeMessage, Adapter.addToEventQueue,
          QueuedRuntimeEvent.clock]
        rw [if_neg hnotlate]
        simp only [if_pos hflush]
      have hpq := processEventQueue_good
        ({ a with
            eventQueue := a.eventQueue ++ [QueuedRuntimeEvent.message m.event_clock m] })
        hgood' hsorted'
      rw [lastClock_append] at hpq
      have hstep' : a.handleRuntimeMessage m =
          ({ a with
              eventClock := m.event_clock,
              eventQueue := [], timerArmed := false },
            (if (a.eventQueue ++ [QueuedRuntimeEvent.message m.event_clock m]).length > 1
              then
                [TraceItem.log LogLevel.info
                  ("Processing " ++
                    toString
                      (a.eventQueue ++ [QueuedRuntimeEvent.message m.event_clock m]).length
                    ++ " runtime events")]
              else []) ++
              (a.eventQueue ++ [QueuedRuntimeEvent.message m.event_clock m]).map dispOf) := by
        rw [hstep]
        exact hpq
      rw [hstep']
      have hih := ih ({ a with
          eventClock := m.event_clock,
          eventQueue := [], timerArmed := false })
        hrs hascr (by intro e he; simp at he) (by constructor)
        (fun hne => absurd rfl hne)
        (fun m' hm' => Or.inr (hmlt m' hm'))
        (by intro m' _ e he; simp at he)
      rw [hih]
      rw [show deliveredClocks
          ((if (a.eventQueue ++ [QueuedRuntimeEvent.message m.event_clock m]).length > 1
            then
              [TraceItem.log LogLevel.info
                ("Processing " ++
                  toString
                    (a.eventQueue ++ [QueuedRuntimeEvent.message m.event_clock m]).length
                  ++ " runtime events")]
            else []) ++
            (a.eventQueue ++ [QueuedRuntimeEvent.message m.event_clock m]).map dispOf) =
          deliveredClocks
            ((a.eventQueue ++ [QueuedRuntimeEvent.message m.event_clock m]).map dispOf)
        from by
          rw [deliveredClocks_append]
          split <;> simp [deliveredClocks]]
      rw [deliveredClocks_dispOf _ hgood']
      simp [QueuedRuntimeEvent.clock]
    · -- the event is out of sequence: defer behind the recovery timer
      have hsorted' : List.Pairwise (fun x y => x.clock < y.clock)
          (a.eventQueue ++ [QueuedRuntimeEvent.message m.event_clock m]) := by
        rw [List.pairwise_append]
        refine ⟨hqsorted, List.pairwise_singleton _ _, ?_⟩
        intro x hx y hy
        simp only [List.mem_singleton] at hy
        subst hy
        exact hq m (List.mem_cons_self _ _) x hx
      have hstep : a.handleRuntimeMessage m =
          (({ a with
              eventQueue := a.eventQueue ++ [QueuedRuntimeEvent.message m.event_clock m],
              timerArmed := true } : Adapter),
            [TraceItem.log LogLevel.info
              (deferInfoText (QueuedRuntimeEvent.message m.event_clock m)
                a.eventClock)]) := by
        simp only [Adapter.handleRuntimeMessage, Adapter.addToEventQueue,
          QueuedRuntimeEvent.clock]
        rw [if_neg hnotlate]
        simp only [if_neg hflush]
      have hih := ih ({ a with
          eventQueue := a.eventQueue ++ [QueuedRuntimeEvent.message m.event_clock m],
          timerArmed := true })
        hrs hascr hgood' hsorted' (fun _ => rfl)
        (fun m' hm' => hclk m' (List.mem_cons_of_mem _ hm'))
        (by
          intro m' hm' e he
          rcases List.mem_append.mp he with he | he
          · exact hq m' (List.mem_cons_of_mem _ hm') e he
          · simp only [List.mem_singleton] at he
            subst he
            exact hmlt m' hm')
      rw [hstep]
      simp only at hih
      rw [hih]
      simp [deliveredClocks, QueuedRuntimeEvent.clock]

/-- Claim C1 counterexample: the events with (duplicate-free) clocks
[3, 1, 2], submitted in that order to a fresh session with no timer firing
between submissions (all within the recovery window, the backlog being
flushed at the end), are NOT dispatched in ascending clock order: the
delivery order is [3, 1, 2], because the no-prior-observation fast path
flushes clock 3 immediately and clocks 1 and 2 then arrive late. -/
theorem c1_submission_order_counterexample :
    (([outputMsgAt 3 "a", outputMsgAt 1 "b", outputMsgAt 2 "c"].map
      (fun m => m.event_clock)).Nodup) ∧
    deliveredClocks (runToCompletion (freshAdapter 0)
      [outputMsgAt 3 "a", outputMsgAt 1 "b", outputMsgAt 2 "c"]).2 = [3, 1, 2] ∧
    deliveredClocks (runToCompletion (freshAdapter 0)
      [outputMsgAt 3 "a", outputMsgAt 1 "b", outputMsgAt 2 "c"]).2 ≠ [1, 2, 3] := by
  decide

/-- Claim C1 (amended): delivery order equals ascending clock order whenever
the events are SUBMITTED in ascending clock order (all arriving within the
recovery window, with the recovery timer flushing any backlog at the end);
the original "regardless of submission order" fails, because a submission
order that triggers an early flush (the no-prior-observation fast path, or a
gap-closing event while later events are still in flight) makes the
remaining events late, and late message events are dispatched out of order
(see the counterexample). -/
theorem c1_ascending_submission_in_order (h : Nat) (msgs : List RuntimeMessage)
    (hsimple : ∀ m ∈ msgs, m.payload.isSimple = true)
    (hasc : List.Pairwise (fun m₁ m₂ => m₁.event_clock < m₂.event_clock) msgs) :
    deliveredClocks (runToCompletion (freshAdapter h) msgs).2 =
      msgs.map (fun m => m.event_clock) := by
  have := ascending_run msgs (freshAdapter h) hsimple hasc
    (by intro e he; simp [freshAdapter] at he)
    (by constructor)
    (fun hne => absurd rfl hne)
    (fun m _ => Or.inl rfl)
    (by intro m _ e he; simp [freshAdapter] at he)
  simpa [freshAdapter] using this

theorem c1_ascending_submission_in_order_witness :
    (∀ m ∈ [outputMsgAt 1 "a", outputMsgAt 3 "b", outputMsgAt 4 "c"],
      m.payload.isSimple = true) ∧
    deliveredClocks (runToCompletion (freshAdapter 0)
      [outputMsgAt 1 "a", outputMsgAt 3 "b", outputMsgAt 4 "c"]).2 =
      [outputMsgAt 1 "a", outputMsgAt 3 "b", outputMsgAt 4 "c"].map
        (fun m => m.event_clock) :=
  ⟨by decide,
    c1_ascending_submission_in_order 0
      [outputMsgAt 1 "a", outputMsgAt 3 "b", outputMsgAt 4 "c"]
      (by decide) (by decide)⟩
